import Mathlib

/-!
Shallow embedding of the R48 rectifier CAN control/telemetry programs
(`rectifier.py` and `rectifier_grafana.py`).

Modelling conventions:
* CAN payloads are `List Nat` of byte values; the data handed to
  `can.Message` is the modelled result of each command builder.
* Python floats are modelled as exact rationals (`ℚ`); the only place the
  machine representation matters is `struct.pack('<f', f)`, modelled by
  `encodeBits`, which computes the IEEE-754 binary32 bit pattern of a
  rational with round-to-nearest-even (the same rounding `struct.pack`
  performs).  All bit-level arithmetic is done in `ℕ` so that concrete
  frames evaluate inside the kernel.
* Fallible Python code (`raise ValueError`) is modelled with `Except`:
  a command builder returns `.ok data` exactly when the source reaches
  its `send_can_message` call with that data.
-/

/-! ## Unit encoder: IEEE-754 binary32 bit patterns -/

/-- Number of binary digits of `n` (`⌊log₂ n⌋ + 1` for `n > 0`, `0` for `0`),
computed with explicit fuel so that it reduces by `rfl` in the kernel.  The
fuel `512` covers every magnitude the binary32 pipeline can meet before the
overflow branch fires. -/
def bitLenAux : Nat → Nat → Nat
  | 0, _ => 0
  | fuel + 1, n => if n = 0 then 0 else bitLenAux fuel (n / 2) + 1

/-- Number of binary digits of `n`. -/
def bitLen (n : Nat) : Nat := bitLenAux 512 n

/-- Rounded quotient `n / d` with ties to even — the rounding mode of IEEE-754
conversions such as Python's `struct.pack('<f', _)`. -/
def rneDiv (n d : Nat) : Nat :=
  let q := n / d
  let r := n % d
  if 2 * r < d then q
  else if d < 2 * r then q + 1
  else if q % 2 = 0 then q else q + 1

/-- IEEE-754 binary32 bit pattern (sign bit excluded) of the positive rational
`p / d` (`p, d ≥ 1`): exponent from the binary magnitude, 24-bit significand
rounded to nearest/even, with subnormal and overflow-to-infinity handling. -/
def encodeBitsND (p d : Nat) : Nat :=
  let e : ℤ := if d ≤ p then (bitLen (p / d) : ℤ) - 1 else -(bitLen ((d + p - 1) / p - 1) : ℤ)
  if e ≤ -127 then
    -- subnormal range: value · 2^149 rounded; carry into the smallest normal
    rneDiv (p * 2 ^ 149) d
  else if 128 ≤ e then
    -- overflow: +infinity
    255 * 2 ^ 23
  else
    let m := if e ≤ 23 then rneDiv (p * 2 ^ (23 - e).toNat) d else rneDiv p (d * 2 ^ (e - 23).toNat)
    if 2 ^ 24 ≤ m then
      if 128 ≤ e + 1 then 255 * 2 ^ 23 else (e + 1 + 127).toNat * 2 ^ 23
    else (e + 127).toNat * 2 ^ 23 + (m - 2 ^ 23)

/-- IEEE-754 binary32 bit pattern of the rational `q`; this is the integer
`struct.unpack('<I', struct.pack('<f', f))[0]` for the float `f = q`. -/
def encodeBits (q : ℚ) : Nat :=
  if q.num = 0 then 0
  else (if q.num < 0 then 2 ^ 31 else 0) + encodeBitsND q.num.natAbs q.den

/-- Exact rational value of a finite binary32 bit pattern (sign, biased
exponent, fraction); inverse of `encodeBits` on representable values.  The
exponent-255 patterns (infinities/NaNs) have no rational value; no result
below depends on them. -/
def decodeValQ (w : Nat) : ℚ :=
  let s : ℚ := if w / 2 ^ 31 % 2 = 1 then -1 else 1
  let e : ℕ := w / 2 ^ 23 % 256
  let f : ℕ := w % 2 ^ 23
  if e = 0 then s * (f : ℚ) / 2 ^ 149
  else s * ((2 ^ 23 + f : ℕ) : ℚ) * 2 ^ e / 2 ^ 150

/-- `float_to_bytearray` of `rectifier.py` (lines 59-61):
`bytearray(struct.pack('<f', f))` — the 4 bytes of the binary32 pattern of
`f`, least significant byte first. -/
def float_to_bytearray (q : ℚ) : List Nat :=
  let w := encodeBits q
  [w % 256, w / 256 % 256, w / 65536 % 256, w / 16777216 % 256]

/-- Reassemble a 4-byte little-endian list into the 32-bit word it denotes. -/
def reassembleLE (l : List Nat) : Nat :=
  match l with
  | [b0, b1, b2, b3] => b0 + 256 * (b1 + 256 * (b2 + 256 * b3))
  | _ => 0

/-- Little-endian byte list of `w`, `k` bytes long. -/
def leBytes : Nat → Nat → List Nat
  | 0, _ => []
  | k + 1, w => w % 256 :: leBytes k (w / 256)

/-- Number of hex digits `hex(w)` prints after `0x` (no leading zeros;
`hex(0) = '0x0'` whose single digit is then stripped by `lstrip('0x')`). -/
def hexLen (w : Nat) : Nat := (bitLen w + 3) / 4

/-- `float_to_bytearray` of `rectifier_grafana.py` (lines 31-33):
`bytearray.fromhex(hex(struct.unpack('<I', struct.pack('<f', f))[0]).lstrip('0x').rstrip('L'))`.
`hex` prints the bit pattern's hex digits most-significant first and without
leading zeros, so the result is the big-endian bytes of the pattern with
leading zero bytes dropped; `bytearray.fromhex` raises `ValueError` (modelled
as `none`) when the digit count is odd, and the zero pattern strips to the
empty string. -/
def grafana_float_to_bytearray (q : ℚ) : Option (List Nat) :=
  let w := encodeBits q
  if hexLen w % 2 = 1 then none else some ((leBytes (hexLen w / 2) w).reverse)

/-! ## Command builder (`rectifier.py`) -/

/-- Nominal current of the R48-3000e (line 25). -/
def OUTPUT_CURRENT_RATED_VALUE : ℚ := 62.5

/-- Lower bound of the current-percentage range (line 26). -/
def OUTPUT_CURRENT_RATED_PERCENTAGE_MIN : ℚ := 10

/-- Upper bound of the current-percentage range (line 27). -/
def OUTPUT_CURRENT_RATED_PERCENTAGE_MAX : ℚ := 121

/-- Lower voltage bound (line 28). -/
def OUTPUT_VOLTAGE_MIN : ℚ := 41.0

/-- Upper voltage bound (line 29). -/
def OUTPUT_VOLTAGE_MAX : ℚ := 58.5

/-- Lower output-current bound (line 30). -/
def OUTPUT_CURRENT_MIN : ℚ := 5.5

/-- Upper output-current bound (line 31). -/
def OUTPUT_CURRENT_MAX : ℚ := OUTPUT_CURRENT_RATED_VALUE

/-- Payload of the `ValueError` raised by `validate_range`: parameter name,
allowed bounds and offending value. -/
structure RangeError where
  name : String
  lo : ℚ
  hi : ℚ
  value : ℚ

/-- `validate_range` (lines 64-68): raises unless `min_val <= value <= max_val`. -/
def validate_range (value lo hi : ℚ) (name : String) : Except RangeError ℚ :=
  if ¬(lo ≤ value ∧ value ≤ hi) then .error ⟨name, lo, hi, value⟩ else .ok value

/-- `set_voltage` (lines 126-130): validate, then send
`[0x03, 0xF0, 0x00, cmd, *float_to_bytearray(voltage)]` with `cmd = 0x24`
when permanent else `0x21`. -/
def set_voltage (voltage : ℚ) (fixed : Bool) : Except RangeError (List Nat) := do
  let _ ← validate_range voltage OUTPUT_VOLTAGE_MIN OUTPUT_VOLTAGE_MAX "Voltage"
  let cmd : Nat := if fixed then 0x24 else 0x21
  pure ([0x03, 0xF0, 0x00, cmd] ++ float_to_bytearray voltage)

/-- `set_current_percentage` (lines 137-141): validate, then send
`[0x03, 0xF0, 0x00, cmd, *float_to_bytearray(percent / 100)]` with
`cmd = 0x19` when permanent else `0x22`. -/
def set_current_percentage (percent : ℚ) (fixed : Bool) : Except RangeError (List Nat) := do
  let _ ← validate_range percent OUTPUT_CURRENT_RATED_PERCENTAGE_MIN
    OUTPUT_CURRENT_RATED_PERCENTAGE_MAX "Current percentage"
  let cmd : Nat := if fixed then 0x19 else 0x22
  pure ([0x03, 0xF0, 0x00, cmd] ++ float_to_bytearray (percent / 100))

/-- `set_current_value` (lines 148-152): validate the amps value, convert to a
percentage of the rated current and dispatch through `set_current_percentage`. -/
def set_current_value (current : ℚ) (fixed : Bool) : Except RangeError (List Nat) := do
  let _ ← validate_range current OUTPUT_CURRENT_MIN OUTPUT_CURRENT_MAX "Current"
  set_current_percentage (current / OUTPUT_CURRENT_RATED_VALUE * OUTPUT_CURRENT_RATED_PERCENTAGE_MAX)
    fixed

/-- `walk_in` (lines 155-160): base list
`[0x03, 0xF0, 0x00, 0x32, 0x00, flag, 0x00, 0x00]`, and when enabling the
4 float bytes of the ramp time are *appended* (`data.extend(...)`), after
which the data is sent unconditionally — there is no validation. -/
def walk_in (time : ℚ) (enable : Bool) : Except RangeError (List Nat) :=
  let data : List Nat := [0x03, 0xF0, 0x00, 0x32, 0x00, if enable then 0x01 else 0x00, 0x00, 0x00]
  .ok (if enable then data ++ float_to_bytearray time else data)

/-- `limit_input` (lines 163-165): sends
`[0x03, 0xF0, 0x00, 0x1A, *float_to_bytearray(current)]` with no validation. -/
def limit_input (current : ℚ) : Except RangeError (List Nat) :=
  .ok ([0x03, 0xF0, 0x00, 0x1A] ++ float_to_bytearray current)

/-- `restart_overvoltage` (lines 168-170): sends
`[0x03, 0xF0, 0x00, 0x39, 0x00, flag, 0x00, 0x00]` with no validation. -/
def restart_overvoltage (state : Bool) : Except RangeError (List Nat) :=
  .ok [0x03, 0xF0, 0x00, 0x39, 0x00, if state then 0x01 else 0x00, 0x00, 0x00]

/-! ## Telemetry decoder (`rectifier.py` lines 107-119) -/

/-- The five telemetry properties the listeners recognize (tag bytes 1-5). -/
inductive PropertyTag
  | outputVoltage
  | outputCurrent
  | currentLimit
  | temperature
  | inputVoltage
deriving DecidableEq

/-- Tag byte of each property. -/
def tagCode : PropertyTag → Nat
  | .outputVoltage => 0x01
  | .outputCurrent => 0x02
  | .currentLimit => 0x03
  | .temperature => 0x04
  | .inputVoltage => 0x05

/-- One decoded telemetry reading: property tag plus the binary32 bit pattern
of the value (the float itself is `decodeValQ value`). -/
structure Reading where
  tag : PropertyTag
  value : Nat
deriving DecidableEq

/-- The 32-bit word read big-endian from `msg.data[4:8]` — the bit pattern
`struct.unpack('>f', msg.data[4:8])` interprets. -/
def beWord (d : List Nat) : Nat :=
  d.getD 4 0 * 16777216 + d.getD 5 0 * 65536 + d.getD 6 0 * 256 + d.getD 7 0

/-- `can_listener` of `rectifier.py` (lines 107-119) as a decoder: a frame
yields a reading exactly when `msg.data[0] == 0x41` and `msg.data[3]` matches
one of the five `case` arms; every other frame falls through silently. -/
def decodeReading (d : List Nat) : Option Reading :=
  if d.getD 0 0 = 0x41 then
    let val := beWord d
    match d.getD 3 0 with
    | 0x01 => some ⟨.outputVoltage, val⟩
    | 0x02 => some ⟨.outputCurrent, val⟩
    | 0x03 => some ⟨.currentLimit, val⟩
    | 0x04 => some ⟨.temperature, val⟩
    | 0x05 => some ⟨.inputVoltage, val⟩
    | _ => none
  else none

/-- A frame the listeners recognize: telemetry marker byte `0x41` and a tag
byte in `{1, 2, 3, 4, 5}`. -/
def isRecognized (d : List Nat) : Bool :=
  d.getD 0 0 == 0x41 &&
    (d.getD 3 0 == 1 || d.getD 3 0 == 2 || d.getD 3 0 == 3 || d.getD 3 0 == 4 || d.getD 3 0 == 5)

/-! ## Snapshot aggregator and metrics publisher (`rectifier_grafana.py` lines 53-118) -/

/-- The five per-call locals of `can_listener` in `rectifier_grafana.py`
(`v_out`, `i_out`, `i_limit`, `temp`, `v_in`), each holding a binary32 bit
pattern (`0` is `0.0`).  They are re-initialized to `0.0` on *every* call
(lines 57-61); only the counter survives between calls. -/
structure Snapshot where
  v_out : Nat
  i_out : Nat
  i_limit : Nat
  temp : Nat
  v_in : Nat
deriving DecidableEq

/-- One line of the Prometheus exposition file: the text before the value
(metric name and mode label) and the value's bit pattern. -/
structure PromLine where
  label : String
  value : Nat
deriving DecidableEq

/-- Metric name used for every published line. -/
def metricName : String := "R48_RECTIFIER"

/-- Text of a published line up to and including the space before the value:
`R48_RECTIFIER{mode="<label>"} `. -/
def lineStart (l : PromLine) : String :=
  metricName ++ "\x7bmode=\"" ++ l.label ++ "\"\x7d "

/-- The flush block of `can_listener` (lines 86-117): the file written and the
rename performed. -/
structure PublishAction where
  writePath : String
  lines : List PromLine
  renameFrom : String
  renameTo : String
deriving DecidableEq

/-- Flush body (lines 86-117): write the five lines (modes `outputV`,
`outputI`, `limitI`, `temp`, `inputV`, in source order) to the temporary
path, then `mv` it onto the published path. -/
def publishSnapshot (s : Snapshot) : PublishAction :=
  { writePath := "/ramdisk/R48_RECTIFIER.prom.tmp"
    lines := [⟨"outputV", s.v_out⟩, ⟨"outputI", s.i_out⟩, ⟨"limitI", s.i_limit⟩,
      ⟨"temp", s.temp⟩, ⟨"inputV", s.v_in⟩]
    renameFrom := "/ramdisk/R48_RECTIFIER.prom.tmp"
    renameTo := "/ramdisk/R48_RECTIFIER.prom" }

/-- Lines 57-84 of `can_listener` in `rectifier_grafana.py`: the locals start
at `0.0`, then — when the frame is a recognized telemetry response — the
matching local is overwritten with the decoded value and the persistent
counter is incremented (unconditionally, once per recognized frame). -/
def listenerLocals (counter : Nat) (d : List Nat) : Snapshot × Nat :=
  if d.getD 0 0 = 0x41 then
    let val := beWord d
    match d.getD 3 0 with
    | 0x01 => (⟨val, 0, 0, 0, 0⟩, counter + 1)
    | 0x02 => (⟨0, val, 0, 0, 0⟩, counter + 1)
    | 0x03 => (⟨0, 0, val, 0, 0⟩, counter + 1)
    | 0x04 => (⟨0, 0, 0, val, 0⟩, counter + 1)
    | 0x05 => (⟨0, 0, 0, 0, val⟩, counter + 1)
    | _ => (⟨0, 0, 0, 0, 0⟩, counter)
  else (⟨0, 0, 0, 0, 0⟩, counter)

/-- One invocation of `can_listener` of `rectifier_grafana.py` (lines 53-118):
process the frame, then — the check sits outside the `0x41` guard — flush and
zero the counter whenever `can_listener.counter >= 5`.  Input: counter value
before the call; output: counter value after the call and the flush performed,
if any. -/
def can_listener_step (counter : Nat) (d : List Nat) : Nat × Option PublishAction :=
  let s := listenerLocals counter d
  if 5 ≤ s.2 then (0, some (publishSnapshot s.1)) else (s.2, none)

/-- A sequence of listener invocations starting from the initial state
(`can_listener.counter = 0`, set by the `hasattr` guard on first call):
final counter and all flushes performed, in order. -/
def runListener (frames : List (List Nat)) : Nat × List PublishAction :=
  frames.foldl (fun st d =>
    let r := can_listener_step st.1 d
    (r.1, st.2 ++ r.2.toList)) (0, [])

/-! ## Helper lemmas -/

/-- Each listener invocation either leaves the counter unchanged (frame not
recognized) or increments it by exactly one (frame recognized) — regardless of
which tag or whether the tag was already seen. -/
lemma locals_spec (c : Nat) (d : List Nat) :
    ((listenerLocals c d).2 = c ∧ isRecognized d = false) ∨
      ((listenerLocals c d).2 = c + 1 ∧ isRecognized d = true) := by
  unfold listenerLocals isRecognized
  by_cases h0 : d.getD 0 0 = 0x41
  · simp only [h0, if_true]
    split <;> simp_all
  · rw [if_neg h0]
    left
    refine ⟨rfl, ?_⟩
    rw [beq_eq_false_iff_ne.mpr h0, Bool.false_and]

/-- On a recognized frame the counter becomes `c + 1` (then resets on flush),
and the flush fires exactly when the incremented counter reaches 5. -/
lemma step_recognized (c : Nat) (d : List Nat) (h : isRecognized d = true) :
    (can_listener_step c d).1 = (if 5 ≤ c + 1 then 0 else c + 1) ∧
      ((can_listener_step c d).2.isSome = true ↔ 5 ≤ c + 1) := by
  have h2 : (listenerLocals c d).2 = c + 1 := by
    rcases locals_spec c d with ⟨_, hf⟩ | ⟨h1, _⟩
    · rw [h] at hf; exact absurd hf (by simp)
    · exact h1
  simp only [can_listener_step, h2]
  by_cases h5 : 5 ≤ c + 1 <;> simp [h5]

/-- An unrecognized frame leaves a sub-5 counter unchanged and never flushes. -/
lemma step_unrecognized (c : Nat) (d : List Nat) (h : isRecognized d = false) (hc : c < 5) :
    can_listener_step c d = (c, none) := by
  have h2 : (listenerLocals c d).2 = c := by
    rcases locals_spec c d with ⟨h1, _⟩ | ⟨_, ht⟩
    · exact h1
    · rw [h] at ht; exact absurd ht (by simp)
  simp only [can_listener_step, h2]
  rw [if_neg (by omega)]

/-- In-range voltages produce exactly the frame of `rectifier.py` line 130. -/
lemma set_voltage_ok_frame (v : ℚ) (p : Bool)
    (h : OUTPUT_VOLTAGE_MIN ≤ v ∧ v ≤ OUTPUT_VOLTAGE_MAX) :
    set_voltage v p
      = .ok ([0x03, 0xF0, 0x00, if p then 0x24 else 0x21] ++ float_to_bytearray v) := by
  unfold set_voltage validate_range
  rw [if_neg (not_not_intro h)]
  rfl

/-- `set_voltage` reaches its send exactly on in-range values (inclusive). -/
lemma set_voltage_isOk (v : ℚ) (p : Bool) :
    (set_voltage v p).isOk = true ↔ (OUTPUT_VOLTAGE_MIN ≤ v ∧ v ≤ OUTPUT_VOLTAGE_MAX) := by
  unfold set_voltage validate_range
  by_cases h : OUTPUT_VOLTAGE_MIN ≤ v ∧ v ≤ OUTPUT_VOLTAGE_MAX
  · rw [if_neg (not_not_intro h)]
    exact iff_of_true rfl h
  · rw [if_pos h]
    exact iff_of_false (fun hk => Bool.false_ne_true hk) h

/-- `set_current_percentage` reaches its send exactly on in-range percentages. -/
lemma set_current_percentage_isOk (q : ℚ) (p : Bool) :
    (set_current_percentage q p).isOk = true
      ↔ (OUTPUT_CURRENT_RATED_PERCENTAGE_MIN ≤ q ∧ q ≤ OUTPUT_CURRENT_RATED_PERCENTAGE_MAX) := by
  unfold set_current_percentage validate_range
  by_cases h : OUTPUT_CURRENT_RATED_PERCENTAGE_MIN ≤ q ∧ q ≤ OUTPUT_CURRENT_RATED_PERCENTAGE_MAX
  · rw [if_neg (not_not_intro h)]
    exact iff_of_true rfl h
  · rw [if_pos h]
    exact iff_of_false (fun hk => Bool.false_ne_true hk) h

/-- For an in-range amps value, `set_current_value` is literally the dispatch
through `set_current_percentage` with the converted argument (line 151-152). -/
lemma set_current_value_eq (c : ℚ) (p : Bool)
    (h : OUTPUT_CURRENT_MIN ≤ c ∧ c ≤ OUTPUT_CURRENT_MAX) :
    set_current_value c p
      = set_current_percentage
          (c / OUTPUT_CURRENT_RATED_VALUE * OUTPUT_CURRENT_RATED_PERCENTAGE_MAX) p := by
  unfold set_current_value validate_range
  rw [if_neg (not_not_intro h)]
  rfl

/-- The amps-to-percent conversion maps `[5.5, 62.5]` into `[10, 121]`
(indeed into `[10.648, 121]`), so the inner validation always passes. -/
lemma pct_bounds (c : ℚ) (h : OUTPUT_CURRENT_MIN ≤ c ∧ c ≤ OUTPUT_CURRENT_MAX) :
    OUTPUT_CURRENT_RATED_PERCENTAGE_MIN
        ≤ c / OUTPUT_CURRENT_RATED_VALUE * OUTPUT_CURRENT_RATED_PERCENTAGE_MAX ∧
      c / OUTPUT_CURRENT_RATED_VALUE * OUTPUT_CURRENT_RATED_PERCENTAGE_MAX
        ≤ OUTPUT_CURRENT_RATED_PERCENTAGE_MAX := by
  unfold OUTPUT_CURRENT_MIN OUTPUT_CURRENT_MAX OUTPUT_CURRENT_RATED_VALUE
    OUTPUT_CURRENT_RATED_PERCENTAGE_MIN OUTPUT_CURRENT_RATED_PERCENTAGE_MAX at *
  obtain ⟨h1, h2⟩ := h
  constructor
  · rw [div_mul_eq_mul_div, le_div_iff₀ (by norm_num)]
    nlinarith
  · rw [div_mul_eq_mul_div, div_le_iff₀ (by norm_num)]
    nlinarith

/-- `set_current_value` reaches its send exactly on in-range amps values. -/
lemma set_current_value_isOk (c : ℚ) (p : Bool) :
    (set_current_value c p).isOk = true ↔ (OUTPUT_CURRENT_MIN ≤ c ∧ c ≤ OUTPUT_CURRENT_MAX) := by
  by_cases h : OUTPUT_CURRENT_MIN ≤ c ∧ c ≤ OUTPUT_CURRENT_MAX
  · rw [set_current_value_eq c p h, set_current_percentage_isOk]
    exact iff_of_true (pct_bounds c h) h
  · unfold set_current_value validate_range
    rw [if_pos h]
    exact iff_of_false (fun hk => Bool.false_ne_true hk) h

/-- The 4 bytes of `float_to_bytearray` reassemble little-endian to the
binary32 bit pattern of the input. -/
lemma reassembleLE_float (q : ℚ) :
    reassembleLE (float_to_bytearray q) = encodeBits q % 4294967296 := by
  unfold float_to_bytearray
  simp only [reassembleLE]
  omega

/-! ## Claim theorems -/

/-- C1: feeding one reading for each of the five tags (all carrying 52.0,
bit pattern `0x42500000`) does trigger exactly one flush and does reset the
counter to 0, but the snapshot handed to the publisher has only the field of
the fifth (flushing) frame set; the four values received earlier in the cycle
are published as 0.0 because `can_listener` re-initializes its value locals on
every invocation.  This refutes the claim that all five fields carry the
values received during the cycle. -/
theorem aggregator_flush_loses_prior_values :
    runListener [[0x41, 0, 0, 1, 0x42, 0x50, 0, 0], [0x41, 0, 0, 2, 0x42, 0x50, 0, 0],
        [0x41, 0, 0, 3, 0x42, 0x50, 0, 0], [0x41, 0, 0, 4, 0x42, 0x50, 0, 0],
        [0x41, 0, 0, 5, 0x42, 0x50, 0, 0]]
      = (0, [publishSnapshot ⟨0, 0, 0, 0, 0x42500000⟩]) ∧
    publishSnapshot ⟨0, 0, 0, 0, 0x42500000⟩
      ≠ publishSnapshot ⟨0x42500000, 0x42500000, 0x42500000, 0x42500000, 0x42500000⟩ :=
  ⟨rfl, by decide⟩

/-- C2 (counterexample): five readings of tag `0x01` alone — tags drawn only
from `{1, 2, 3, 4}`, tag `0x05` never arriving — trigger a flush, because the
counter counts recognized frames, not distinct tags. -/
theorem flush_triggered_by_repeated_tag :
    (runListener (List.replicate 5 [0x41, 0, 0, 1, 0x42, 0x50, 0, 0])).2
        = [publishSnapshot ⟨0x42500000, 0, 0, 0, 0⟩] ∧
      (runListener (List.replicate 5 [0x41, 0, 0, 1, 0x42, 0x50, 0, 0])).2 ≠ [] :=
  ⟨rfl, by decide⟩

/-- C2 (amended): the per-cycle counter is incremented on *every* frame with
marker `0x41` and a tag in `{1..5}`, whether or not that tag was already seen
in the cycle, and the flush fires exactly when the incremented counter reaches
5 — so five recognized readings of any tags (including tags only from
`{1, 2, 3, 4}`) trigger a flush. -/
theorem counter_counts_every_recognized_frame (c : Nat) (d : List Nat)
    (h : isRecognized d = true) :
    (can_listener_step c d).1 = (if 5 ≤ c + 1 then 0 else c + 1) ∧
      ((can_listener_step c d).2.isSome = true ↔ 5 ≤ c + 1) :=
  step_recognized c d h

/-- Witness for C2 (amended): a tag-2 frame arriving with counter 4 flushes
and resets; the recognition premise holds by evaluation. -/
theorem counter_counts_every_recognized_frame_witness :
    isRecognized [0x41, 0, 0, 2, 0, 0, 0, 66] = true ∧
      ((can_listener_step 4 [0x41, 0, 0, 2, 0, 0, 0, 66]).1 = (if 5 ≤ 4 + 1 then 0 else 4 + 1) ∧
        ((can_listener_step 4 [0x41, 0, 0, 2, 0, 0, 0, 66]).2.isSome = true ↔ 5 ≤ 4 + 1)) :=
  ⟨rfl, counter_counts_every_recognized_frame 4 [0x41, 0, 0, 2, 0, 0, 0, 66] rfl⟩

/-- C3: walk-in disable composes the 8-byte frame ending in
`[0x00, 0x00, 0x00, 0x00]`, and an in-range `set_voltage` frame is 8 bytes —
but walk-in *enable* appends the 4 ramp-time bytes to the already 8-byte list
(`data.extend`), composing a 12-byte payload, which refutes the exactly-8-bytes
invariant (and cannot be carried by a classic CAN frame). -/
theorem walk_in_enable_builds_12_byte_frame :
    (walk_in 5 true).map List.length = .ok 12 ∧
      walk_in 0 false = .ok [0x03, 0xF0, 0x00, 0x32, 0x00, 0x00, 0x00, 0x00] ∧
      (set_voltage 52 false).map List.length = .ok 8 := by
  refine ⟨rfl, rfl, ?_⟩
  rw [set_voltage_ok_frame 52 false (by unfold OUTPUT_VOLTAGE_MIN OUTPUT_VOLTAGE_MAX; norm_num)]
  rfl

/-- C4 (counterexample): `limit_input` composes and sends a full 8-byte frame
for the value 1 000 000 A — far outside every bound of the range table — and
`walk_in` likewise sends for a negative ramp time: neither operation performs
any range validation, so out-of-range values do reach the transport. -/
theorem limit_input_sends_frame_for_any_value :
    (limit_input 1000000).isOk = true ∧
      (limit_input 1000000).map (List.take 4) = .ok [0x03, 0xF0, 0x00, 0x1A] ∧
      (limit_input 1000000).map List.length = .ok 8 ∧
      (walk_in (-1) true).isOk = true :=
  ⟨rfl, rfl, rfl, rfl⟩

/-- C4 (amended): `set_voltage`, `set_current_percentage` and
`set_current_value` validate against the range table and reach their send
exactly on in-range values (an out-of-range value raises and nothing is
sent), while `walk_in`, `limit_input` and `restart_overvoltage` perform no
validation and produce a frame for every argument. -/
theorem range_validation_coverage :
    (∀ v p, (set_voltage v p).isOk = true ↔ ((41.0 : ℚ) ≤ v ∧ v ≤ 58.5)) ∧
      (∀ q p, (set_current_percentage q p).isOk = true ↔ ((10 : ℚ) ≤ q ∧ q ≤ 121)) ∧
      (∀ c p, (set_current_value c p).isOk = true ↔ ((5.5 : ℚ) ≤ c ∧ c ≤ 62.5)) ∧
      (∀ t b, (walk_in t b).isOk = true) ∧
      (∀ c, (limit_input c).isOk = true) ∧
      (∀ b, (restart_overvoltage b).isOk = true) :=
  ⟨fun v p => set_voltage_isOk v p, fun q p => set_current_percentage_isOk q p,
    fun c p => set_current_value_isOk c p, fun _ _ => rfl, fun _ => rfl, fun _ => rfl⟩

/-- C5: `float_to_bytearray` of `rectifier.py` always returns exactly 4 bytes
which reassemble little-endian to the binary32 pattern of the input, and
52.0 encodes to `00 00 50 42` (whose pattern `0x42500000` indeed denotes 52);
but the `rectifier_grafana.py` variant emits the *hex digits* of the pattern
most-significant first with leading zeros stripped: 52.0 yields the big-endian
bytes `42 50 00 00`, and 0.0 yields the empty byte string, refuting the
4-byte little-endian contract for that copy of the encoder. -/
theorem float_encoder_behavior :
    (∀ q : ℚ, (float_to_bytearray q).length = 4
        ∧ reassembleLE (float_to_bytearray q) = encodeBits q % 4294967296) ∧
      float_to_bytearray 52 = [0x00, 0x00, 0x50, 0x42] ∧
      decodeValQ 0x42500000 = 52 ∧
      grafana_float_to_bytearray 52 = some [0x42, 0x50, 0x00, 0x00] ∧
      grafana_float_to_bytearray 0 = some [] := by
  refine ⟨fun q => ⟨rfl, reassembleLE_float q⟩, by decide, ?_, by decide, by decide⟩
  simp only [decodeValQ]
  norm_num

/-- C6: for every in-range amps value, `set_current_value` produces exactly
the result of `set_current_percentage` at `(c / 62.5) * 121` (the source's
own conversion), and that result is a sent frame. -/
theorem set_current_value_dispatches_to_percentage (c : ℚ) (p : Bool)
    (h1 : 5.5 ≤ c) (h2 : c ≤ 62.5) :
    set_current_value c p = set_current_percentage (c / 62.5 * 121) p ∧
      (set_current_value c p).isOk = true :=
  ⟨set_current_value_eq c p ⟨h1, h2⟩, (set_current_value_isOk c p).mpr ⟨h1, h2⟩⟩

/-- Witness for C6: `SetCurrentValue(62.5, permanent=false)` produces the same
frame as `SetCurrentPercentage(121.0, permanent=false)` (since
`62.5 / 62.5 * 121 = 121`), and it is sent. -/
theorem set_current_value_dispatches_to_percentage_witness :
    set_current_value 62.5 false = set_current_percentage 121 false ∧
      (set_current_value 62.5 false).isOk = true := by
  have h := set_current_value_dispatches_to_percentage 62.5 false (by norm_num) (by norm_num)
  have e : (62.5 : ℚ) / 62.5 * 121 = 121 := by norm_num
  rw [e] at h
  exact h

/-- C7: for every 8-byte frame, the decoder yields a reading exactly when
byte 0 is `0x41` and byte 3 is a tag in `{1, 2, 3, 4, 5}` (anything else is
silently ignored), and the reading's value is the word read big-endian from
bytes 4-7 with the tag matching byte 3. -/
theorem decodeReading_classification (d : List Nat) (h : d.length = 8) :
    ((decodeReading d).isSome = true ↔ (d.getD 0 0 = 0x41 ∧ d.getD 3 0 ∈ [1, 2, 3, 4, 5])) ∧
      (∀ r, decodeReading d = some r → r.value = beWord d ∧ tagCode r.tag = d.getD 3 0) := by
  constructor
  · unfold decodeReading
    by_cases h0 : d.getD 0 0 = 0x41
    · simp only [h0, if_true]
      split <;> simp_all
    · rw [if_neg h0]
      simp only [Option.isSome_none, Bool.false_eq_true, false_iff, not_and]
      intro hx
      exact absurd hx h0
  · intro r hr
    unfold decodeReading at hr
    by_cases h0 : d.getD 0 0 = 0x41
    · rw [if_pos h0] at hr
      split at hr <;> simp_all <;> subst hr <;> simp_all [tagCode, List.getD]
    · rw [if_neg h0] at hr
      simp at hr

/-- Witness for C7: the frame `[0x41, 0, 0, 1, 0x42, 0x50, 0, 0]` has length
8 and is decoded to a reading. -/
theorem decodeReading_classification_witness :
    ([0x41, 0, 0, 1, 0x42, 0x50, 0, 0] : List Nat).length = 8 ∧
      (decodeReading [0x41, 0, 0, 1, 0x42, 0x50, 0, 0]).isSome = true :=
  ⟨rfl, (decodeReading_classification [0x41, 0, 0, 1, 0x42, 0x50, 0, 0] rfl).1.mpr (by decide)⟩

/-- C8: the voltage bounds are inclusive — `set_voltage(40.9)` fails
validation (nothing is sent: the builder only sends on `.ok`), while
`set_voltage(41.0)` and `set_voltage(58.5)` both reach the send. -/
theorem set_voltage_bounds_inclusive :
    (set_voltage 40.9 false).isOk = false ∧
      (set_voltage 41.0 false).isOk = true ∧
      (set_voltage 58.5 false).isOk = true := by
  refine ⟨?_, ?_, ?_⟩
  · rw [Bool.eq_false_iff]
    intro hk
    have h := (set_voltage_isOk 40.9 false).mp hk
    unfold OUTPUT_VOLTAGE_MIN OUTPUT_VOLTAGE_MAX at h
    norm_num at h
  · exact (set_voltage_isOk 41.0 false).mpr
      (by unfold OUTPUT_VOLTAGE_MIN OUTPUT_VOLTAGE_MAX; norm_num)
  · exact (set_voltage_isOk 58.5 false).mpr
      (by unfold OUTPUT_VOLTAGE_MIN OUTPUT_VOLTAGE_MAX; norm_num)

/-- C9: whatever flush a listener invocation performs writes exactly 5 lines —
one per property, in source order, each of the fixed form
`R48_RECTIFIER\x7bmode="<tag>"\x7d <value>` — to the temporary path, which is
then renamed onto the published path.  This holds for every reachable flush
independently of which fields were actually received (unreceived fields are
the reset value 0.0). -/
theorem flush_writes_five_line_file (c : Nat) (d : List Nat) (a : PublishAction)
    (h : (can_listener_step c d).2 = some a) :
    a.lines.length = 5 ∧
      a.lines.map PromLine.label = ["outputV", "outputI", "limitI", "temp", "inputV"] ∧
      a.lines.map lineStart =
        ["R48_RECTIFIER\x7bmode=\"outputV\"\x7d ", "R48_RECTIFIER\x7bmode=\"outputI\"\x7d ",
          "R48_RECTIFIER\x7bmode=\"limitI\"\x7d ", "R48_RECTIFIER\x7bmode=\"temp\"\x7d ",
          "R48_RECTIFIER\x7bmode=\"inputV\"\x7d "] ∧
      a.writePath = "/ramdisk/R48_RECTIFIER.prom.tmp" ∧
      a.renameFrom = "/ramdisk/R48_RECTIFIER.prom.tmp" ∧
      a.renameTo = "/ramdisk/R48_RECTIFIER.prom" := by
  simp only [can_listener_step] at h
  split at h
  · cases h
    exact ⟨rfl, rfl, rfl, rfl, rfl, rfl⟩
  · simp at h

/-- Witness for C9: with counter 4 a tag-5 frame flushes, and the flush's file
has 5 lines. -/
theorem flush_writes_five_line_file_witness :
    (can_listener_step 4 [0x41, 0, 0, 5, 0, 0, 0, 0]).2 = some (publishSnapshot ⟨0, 0, 0, 0, 0⟩) ∧
      (publishSnapshot ⟨0, 0, 0, 0, 0⟩).lines.length = 5 :=
  ⟨rfl, (flush_writes_five_line_file 4 [0x41, 0, 0, 5, 0, 0, 0, 0]
    (publishSnapshot ⟨0, 0, 0, 0, 0⟩) rfl).1⟩

/-- C10: starting below 5, one listener invocation always returns a counter
below 5 (an invocation that reaches 5 flushes and resets to 0 before
returning), and any flush it performs — at most one, since the step yields at
most one `PublishAction` — happens only when the invocation recognized a
telemetry reading. -/
theorem listener_counter_invariant (c : Nat) (d : List Nat) (h : c < 5) :
    (can_listener_step c d).1 < 5 ∧
      ((can_listener_step c d).2.isSome = true →
        isRecognized d = true ∧ (can_listener_step c d).1 = 0) := by
  cases hr : isRecognized d
  · rw [step_unrecognized c d hr h]
    exact ⟨h, by simp⟩
  · obtain ⟨h1, h2⟩ := step_recognized c d hr
    by_cases h5 : 5 ≤ c + 1
    · rw [if_pos h5] at h1
      exact ⟨by omega, fun _ => ⟨rfl, h1⟩⟩
    · rw [if_neg h5] at h1
      refine ⟨by omega, fun hs => absurd (h2.mp hs) h5⟩

/-- Witness for C10: with counter 4 (below 5) and a recognized frame, the
post-invocation counter is again below 5. -/
theorem listener_counter_invariant_witness :
    (4 : Nat) < 5 ∧ (can_listener_step 4 [0x41, 0, 0, 1, 0x42, 0x50, 0, 0]).1 < 5 :=
  ⟨by decide, (listener_counter_invariant 4 [0x41, 0, 0, 1, 0x42, 0x50, 0, 0] (by decide)).1⟩
